import Mathlib

/-!
Verification of the kvlite key-value store (github.com/lofoneh/kvlite).

Shallow embedding of the Go source:
  * `internal/store/entry.go`   — `Entry`, expiry logic
  * `internal/store/store.go`   — keyspace operations (`Get`, `Delete`, `TTL`,
    `Scan`, glob matching)
  * `internal/wal/record.go`    — WAL record encode/decode with CRC-32 checksum
  * `internal/engine/engine.go` — engine operations (`Set`, `SetWithTTL`,
    `Delete`, `Clear`, `Compact`, recovery)
  * `pkg/api/api.go`            — command processing (TTL, INCR, DECR, MSET)

Wall-clock time (`time.Now().UnixNano()`) is passed explicitly as an `Int`
parameter `now`; record timestamps as `ts`.  Go `int64` arithmetic that can
overflow is modelled with an explicit wrap (`wrap64`).  I/O outcomes (WAL
append success, snapshot write success, truncate success) are explicit
boolean parameters.  The Go `map[string]*Entry` is modelled as an association
list with unique keys; Go map iteration order is modelled by the list order.
Strings are Lean `String`s; byte strings fed to CRC-32 are modelled as the
list of character codes, which coincides with the Go UTF-8 bytes on the
ASCII data used throughout.
-/

namespace KVLite

/-! ### Entry (internal/store/entry.go) -/

/-- `Entry` from internal/store/entry.go: a value with an optional expiry.
`expiresAt` is Unix nanoseconds; `0` means no expiration. -/
structure Entry where
  value : String
  expiresAt : Int
deriving DecidableEq

/-- `NewEntry`: entry without TTL. -/
def NewEntry (value : String) : Entry :=
  { value := value, expiresAt := 0 }

/-- `NewEntryWithTTL`: entry expiring at `now + ttl` when `ttl > 0`,
persistent otherwise. -/
def NewEntryWithTTL (now : Int) (value : String) (ttl : Int) : Entry :=
  { value := value, expiresAt := if ttl > 0 then now + ttl else 0 }

/-- `Entry.IsExpired`: expired iff it has an expiry and `now` is strictly
past it (`time.Now().UnixNano() > e.ExpiresAt`). -/
def Entry.isExpired (now : Int) (e : Entry) : Bool :=
  if e.expiresAt = 0 then false else decide (now > e.expiresAt)

/-- `Entry.TTL`: remaining time to live in nanoseconds; `0` if no TTL or
already elapsed. -/
def Entry.ttlRemaining (now : Int) (e : Entry) : Int :=
  if e.expiresAt = 0 then 0
  else
    let remaining := e.expiresAt - now
    if remaining ≤ 0 then 0 else remaining

/-! ### Keyspace (internal/store/store.go)

The Go `map[string]*Entry` is an association list with unique keys. -/

abbrev StoreData := List (String × Entry)

/-- Go map lookup `s.data[key]`. -/
def lookupAssoc (d : StoreData) (k : String) : Option Entry :=
  match d with
  | [] => none
  | (k', e) :: rest => if k' = k then some e else lookupAssoc rest k

/-- Go map assignment `s.data[key] = e`: replace in place, or append. -/
def setAssoc (d : StoreData) (k : String) (e : Entry) : StoreData :=
  match d with
  | [] => [(k, e)]
  | (k', e') :: rest => if k' = k then (k, e) :: rest else (k', e') :: setAssoc rest k e

/-- Go `delete(s.data, key)`. -/
def delAssoc (d : StoreData) (k : String) : StoreData :=
  match d with
  | [] => []
  | (k', e) :: rest => if k' = k then delAssoc rest k else (k', e) :: delAssoc rest k

/-- `Store.Set`: stores a key-value pair without TTL. -/
def storeSet (d : StoreData) (key value : String) : StoreData :=
  setAssoc d key (NewEntry value)

/-- `Store.SetWithTTL`. -/
def storeSetWithTTL (now : Int) (d : StoreData) (key value : String) (ttl : Int) : StoreData :=
  setAssoc d key (NewEntryWithTTL now value ttl)

/-- `Store.Get` with lazy expiration: returns the (possibly mutated) map and
the result.  An expired entry is deleted and reported absent. -/
def storeGet (now : Int) (d : StoreData) (key : String) : StoreData × Option String :=
  match lookupAssoc d key with
  | none => (d, none)
  | some e => if e.isExpired now then (delAssoc d key, none) else (d, some e.value)

/-- `Store.Delete`: removes the binding, reporting whether the key was
present in the map (note: no expiry check in the source). -/
def storeDelete (d : StoreData) (key : String) : StoreData × Bool :=
  (delAssoc d key, (lookupAssoc d key).isSome)

/-- `Store.Clear`. -/
def storeClear (_ : StoreData) : StoreData := []

/-- `Store.TTL`: remaining time to live, `0` if the key is absent, expired,
or has no TTL. -/
def storeTTL (now : Int) (d : StoreData) (key : String) : Int :=
  match lookupAssoc d key with
  | none => 0
  | some e => if e.isExpired now then 0 else e.ttlRemaining now

/-! ### Glob matching and SCAN (internal/store/store.go) -/

/-- `globMatch`: recursive glob matching exactly as in the source.  The Go
function advances indices `pIdx`/`sIdx` into fixed strings; here the suffixes
themselves recurse.  On `*` it skips consecutive stars, succeeds if the
pattern is exhausted, and otherwise tries every suffix of the string;
otherwise `?` or an equal character consumes one character of each. -/
def globMatch (p s : List Char) : Bool :=
  match p with
  | [] => s.isEmpty
  | c :: ps =>
    if h : c = '*' then
      let ps' := (c :: ps).dropWhile (fun x => x == '*')
      if ps' = [] then true
      else (List.range (s.length + 1)).any (fun i => globMatch ps' (s.drop i))
    else
      match s with
      | [] => false
      | d :: ss => if c = '?' ∨ c = d then globMatch ps ss else false
termination_by p.length
decreasing_by
  · subst h
    rw [List.dropWhile_cons_of_pos (by simp)]
    simp only [List.length_cons]
    exact Nat.lt_succ_of_le (List.dropWhile_sublist _).length_le
  · exact Nat.lt_succ_self _

/-- `matchPattern`: glob matching with the source's two fast paths. -/
def matchPattern (pattern str : String) : Bool :=
  if pattern = "*" then true
  else if pattern = str then true
  else globMatch pattern.toList str.toList

/-- The `allKeys` list collected by `Store.Scan`: all non-expired keys
matching the pattern, in map iteration order. -/
def scanAllKeys (now : Int) (d : StoreData) (pattern : String) : List String :=
  match d with
  | [] => []
  | (k, e) :: rest =>
    if e.isExpired now then scanAllKeys now rest pattern
    else if matchPattern pattern k then k :: scanAllKeys now rest pattern
    else scanAllKeys now rest pattern

/-- `Store.Scan`: paginated keys matching a pattern.  Returns
`(next cursor, keys, hasMore)`.  The Go cursor and count are `int`; the claim
only exercises the cursor values reachable from `0` (all non-negative), and a
non-positive count is replaced by the default page size `10` (with `Nat`,
non-positive means `0`). -/
def storeScan (now : Int) (d : StoreData) (cursor : Nat) (pattern : String) (count : Nat) :
    Nat × List String × Bool :=
  let cnt := if count = 0 then 10 else count
  let allKeys := scanAllKeys now d pattern
  if cursor ≥ allKeys.length then (0, [], false)
  else
    let e := cursor + cnt
    let hasMore := decide (e < allKeys.length)
    let e2 := if e > allKeys.length then allKeys.length else e
    let keys := (allKeys.take e2).drop cursor
    (if hasMore then e2 else 0, keys, hasMore)

/-- The client-side SCAN iteration under a stable-enumeration assumption:
call `storeScan`, collect the batch, and repeat with the returned cursor
until it is `0`, every call seeing the map in the same enumeration order
`d`.  This assumption is NOT provided by the program: each `Store.Scan`
call re-ranges the Go map, whose iteration order is randomized per range
loop, and the exactly-once property fails once the order changes between
calls (see the reorder counterexample among the C8 theorems below).  -/
def scanIter (now : Int) (d : StoreData) (pattern : String) (count cursor : Nat) : List String :=
  let r := storeScan now d cursor pattern count
  if h : r.1 = 0 then r.2.1
  else r.2.1 ++ scanIter now d pattern count r.1
termination_by (scanAllKeys now d pattern).length - cursor
decreasing_by
  have h : ¬ (storeScan now d cursor pattern count).1 = 0 := h
  have hb : cursor < (storeScan now d cursor pattern count).1 ∧
      (storeScan now d cursor pattern count).1 < (scanAllKeys now d pattern).length := by
    unfold storeScan at h ⊢
    by_cases hc : cursor ≥ (scanAllKeys now d pattern).length
    · simp [hc] at h
    · by_cases hm : cursor + (if count = 0 then 10 else count) < (scanAllKeys now d pattern).length
      · have hcnt : 1 ≤ (if count = 0 then 10 else count) := by
          by_cases h0 : count = 0 <;> simp [h0] <;> omega
        have hle : ¬ (cursor + (if count = 0 then 10 else count) >
            (scanAllKeys now d pattern).length) := by omega
        simp only [hc, if_false, hm, hle, decide_eq_true_eq, if_true, decide_eq_false_iff_not]
        simp [hm]
        omega
      · simp [hc, hm] at h
  omega

/-- Whether a key is visible to SCAN: present, not expired, and matching. -/
def scanVisible (now : Int) (d : StoreData) (pattern k : String) : Bool :=
  match lookupAssoc d k with
  | none => false
  | some e => !(e.isExpired now) && matchPattern pattern k

/-! ### WAL records (internal/wal/record.go)

`hash/crc32.ChecksumIEEE` is the standard reflected CRC-32 (polynomial
`0xEDB88320`, initial value `0xFFFFFFFF`, final complement), computed here
bit by bit over the byte values. -/

/-- One bit step of the reflected CRC-32 division. -/
def crc32UpdateBit (c : Nat) : Nat :=
  if c % 2 = 1 then Nat.xor (c / 2) 0xEDB88320 else c / 2

/-- `k` bit steps. -/
def crc32Bits : Nat → Nat → Nat
  | 0, c => c
  | k + 1, c => crc32Bits k (crc32UpdateBit c)

/-- Absorb one byte into the running CRC. -/
def crc32Update (c b : Nat) : Nat :=
  crc32Bits 8 (Nat.xor c (b % 256))

/-- `crc32.ChecksumIEEE` over a byte list. -/
def crc32 (bytes : List Nat) : Nat :=
  Nat.xor (bytes.foldl crc32Update 0xFFFFFFFF) 0xFFFFFFFF

/-- The bytes of a string (`[]byte(s)` in Go); character codes coincide with
the UTF-8 bytes for the ASCII data handled here. -/
def strBytes (s : String) : List Nat :=
  s.toList.map Char.toNat

/-- `OpType`: the operation tag of a WAL record. -/
inductive OpType
  | set
  | delete
  | clear
deriving DecidableEq

/-- The string form of an operation (`"SET"`, `"DELETE"`, `"CLEAR"`). -/
def OpType.str : OpType → String
  | .set => "SET"
  | .delete => "DELETE"
  | .clear => "CLEAR"

/-- Parsing an operation string, as in `Decode`'s validity check. -/
def opOfString (s : String) : Option OpType :=
  if s = "SET" then some .set
  else if s = "DELETE" then some .delete
  else if s = "CLEAR" then some .clear
  else none

/-- `Record`: a single WAL entry.  The timestamp is Unix nanoseconds
(`int64`), the checksum a CRC-32 (`uint32`).  Note the structure has no TTL
field of any kind. -/
structure Record where
  timestamp : Int
  op : OpType
  key : String
  value : String
  checksum : Nat
deriving DecidableEq

/-- `calculateChecksum`: CRC-32 of `"<ts>|<op>|<key>|<value>"` (raw,
unescaped fields). -/
def calculateChecksum (ts : Int) (op : OpType) (key value : String) : Nat :=
  crc32 (strBytes (toString ts ++ "|" ++ op.str ++ "|" ++ key ++ "|" ++ value))

/-- `NewRecord` with the current time passed explicitly. -/
def NewRecord (ts : Int) (op : OpType) (key value : String) : Record :=
  { timestamp := ts, op := op, key := key, value := value,
    checksum := calculateChecksum ts op key value }

/-- `Record.Validate` as a boolean: the stored checksum matches the
recomputed one. -/
def Record.validate (r : Record) : Bool :=
  r.checksum == calculateChecksum r.timestamp r.op r.key r.value

/-- `strings.ReplaceAll`: leftmost non-overlapping replacement of `pat` by
`rep`.  The fuel counts down once per examined position while the remaining
string shrinks by at least one character per step (the patterns used here
are non-empty), so starting the fuel at the string's length the zero-fuel
case is never reached; the fuel only makes the recursion structural. -/
def replaceAllFuel (pat rep : List Char) : Nat → List Char → List Char
  | _, [] => []
  | 0, s => s
  | fuel + 1, c :: rest =>
    if pat = [] then c :: rest
    else if pat.isPrefixOf (c :: rest) then
      rep ++ replaceAllFuel pat rep fuel ((c :: rest).drop pat.length)
    else
      c :: replaceAllFuel pat rep fuel rest

def replaceAll (pat rep s : List Char) : List Char :=
  replaceAllFuel pat rep s.length s

/-- `escape`: backslash first, then pipe, then newline — three sequential
full-string passes, as in the source (the innermost call is the first
pass). -/
def escape (s : List Char) : List Char :=
  replaceAll ['\n'] ['\\', 'n'] (replaceAll ['|'] ['\\', '|'] (replaceAll ['\\'] ['\\', '\\'] s))

/-- `unescape`: newline first, then pipe, then backslash — three sequential
full-string passes, as in the source. -/
def unescape (s : List Char) : List Char :=
  replaceAll ['\\', '\\'] ['\\'] (replaceAll ['\\', '|'] ['|'] (replaceAll ['\\', 'n'] ['\n'] s))

/-- `Record.Encode`: `"<ts>|<op>|<esc(key)>|<esc(value)>|<checksum>\n"`. -/
def Encode (r : Record) : String :=
  String.mk ((toString r.timestamp).toList ++ '|' :: r.op.str.toList
    ++ '|' :: escape r.key.toList ++ '|' :: escape r.value.toList
    ++ '|' :: (toString r.checksum).toList ++ ['\n'])

/-- `splitRecord`: split on unescaped `|`, a backslash escaping the next
character (both are kept in the field). -/
def splitRecordAux : List Char → Bool → List Char → List (List Char)
  | [], _, current => [current.reverse]
  | c :: rest, true, current => splitRecordAux rest false (c :: current)
  | c :: rest, false, current =>
    if c = '\\' then splitRecordAux rest true (c :: current)
    else if c = '|' then current.reverse :: splitRecordAux rest false []
    else splitRecordAux rest false (c :: current)

def splitRecord (line : List Char) : List (List Char) :=
  splitRecordAux line false []

/-- The digit-string value of a non-empty all-digit character list. -/
def digitsValAux : List Char → Nat → Option Nat
  | [], acc => some acc
  | c :: rest, acc =>
    if c.isDigit then digitsValAux rest (acc * 10 + (c.toNat - 48)) else none

def digitsVal : List Char → Option Nat
  | [] => none
  | cs => digitsValAux cs 0

/-- `strconv.ParseInt(s, 10, 64)`: optional single sign, non-empty digits,
result within the `int64` range; `none` models a non-nil error. -/
def parseInt64 (s : String) : Option Int :=
  match s.toList with
  | [] => none
  | '+' :: rest =>
    (digitsVal rest).bind (fun n => if n ≤ 2 ^ 63 - 1 then some (n : Int) else none)
  | '-' :: rest =>
    (digitsVal rest).bind (fun n => if n ≤ 2 ^ 63 then some (-(n : Int)) else none)
  | cs =>
    (digitsVal cs).bind (fun n => if n ≤ 2 ^ 63 - 1 then some (n : Int) else none)

/-- `strconv.ParseUint(s, 10, 32)`: no sign, non-empty digits, below
`2^32`. -/
def parseUint32 (s : String) : Option Nat :=
  (digitsVal s.toList).bind (fun n => if n < 2 ^ 32 then some n else none)

/-- `strings.TrimSpace`. -/
def trimSpace (cs : List Char) : List Char :=
  ((cs.dropWhile Char.isWhitespace).reverse.dropWhile Char.isWhitespace).reverse

/-- `Decode`: trim, split on unescaped pipes, parse the five fields,
unescape key and value, and validate the checksum.  `none` models a non-nil
error (empty line, wrong field count, bad integer, unknown op, or checksum
mismatch). -/
def Decode (line : String) : Option Record :=
  let cs := trimSpace line.toList
  if cs = [] then none
  else
    match splitRecord cs with
    | [p0, p1, p2, p3, p4] =>
      match parseInt64 (String.mk p0) with
      | none => none
      | some ts =>
        match opOfString (String.mk p1) with
        | none => none
        | some op =>
          match parseUint32 (String.mk p4) with
          | none => none
          | some ck =>
            let r : Record :=
              { timestamp := ts, op := op, key := String.mk (unescape p2),
                value := String.mk (unescape p3), checksum := ck }
            if r.validate then some r else none
    | _ => none

/-! ### Engine (internal/engine/engine.go)

WAL and snapshot I/O outcomes are explicit booleans (`true` = the underlying
file operation succeeds).  Wall-clock time `now` and the record timestamp
`ts` are explicit.  Analytics is observational and omitted. -/

/-- Error kinds surfaced by engine operations (§7 of the spec); the Go
`error` values carry formatted messages, modelled by their kind. -/
inductive EngineErr
  | walIo
  | snapshotIo
deriving DecidableEq

/-- Engine state: keyspace, WAL records on disk, WAL entry counter, and the
latest snapshot contents (if any). -/
structure EngineState where
  store : StoreData
  wal : List Record
  walEntryCount : Int
  snapshot : Option (List (String × String))
deriving DecidableEq

/-- `WAL.Write`: append a record, or fail with a `WalIo` error. -/
def walWrite (walOk : Bool) (wal : List Record) (r : Record) : Option (List Record) :=
  if walOk then some (wal ++ [r]) else none

/-- `Engine.Set`: WAL first, then the keyspace, then the entry counter. -/
def engineSet (walOk : Bool) (ts : Int) (e : EngineState) (key value : String) :
    EngineState × Option EngineErr :=
  match walWrite walOk e.wal (NewRecord ts .set key value) with
  | none => (e, some .walIo)
  | some wal2 =>
    ({ e with
        store := storeSet e.store key value
        wal := wal2
        walEntryCount := e.walEntryCount + 1 }, none)

/-- `Engine.SetWithTTL`: the WAL record is `NewRecord(OpSet, key, value)` —
it carries no TTL; the TTL only reaches the in-memory store. -/
def engineSetWithTTL (walOk : Bool) (now ts : Int) (e : EngineState) (key value : String)
    (ttl : Int) : EngineState × Option EngineErr :=
  match walWrite walOk e.wal (NewRecord ts .set key value) with
  | none => (e, some .walIo)
  | some wal2 =>
    ({ e with
        store := storeSetWithTTL now e.store key value ttl
        wal := wal2
        walEntryCount := e.walEntryCount + 1 }, none)

/-- `Engine.Get`: delegates to the store (lazy expiration mutates it). -/
def engineGet (now : Int) (e : EngineState) (key : String) :
    EngineState × Option String :=
  let p := storeGet now e.store key
  ({ e with store := p.1 }, p.2)

/-- `Engine.Delete`: looks the key up first (treating expired keys as
absent, with the lazy-expiration side effect), then WAL, then the keyspace.
Result is `(state, deleted, error)`, mirroring the Go `(bool, error)`. -/
def engineDelete (walOk : Bool) (now ts : Int) (e : EngineState) (key : String) :
    EngineState × Bool × Option EngineErr :=
  let p := storeGet now e.store key
  match p.2 with
  | none => ({ e with store := p.1 }, false, none)
  | some _ =>
    match walWrite walOk e.wal (NewRecord ts .delete key "") with
    | none => ({ e with store := p.1 }, false, some .walIo)
    | some wal2 =>
      ({ e with
          store := (storeDelete p.1 key).1
          wal := wal2
          walEntryCount := e.walEntryCount + 1 }, true, none)

/-- `Engine.Clear`: WAL first, then empty the keyspace. -/
def engineClear (walOk : Bool) (ts : Int) (e : EngineState) :
    EngineState × Option EngineErr :=
  match walWrite walOk e.wal (NewRecord ts .clear "" "") with
  | none => (e, some .walIo)
  | some wal2 =>
    ({ e with
        store := storeClear e.store
        wal := wal2
        walEntryCount := e.walEntryCount + 1 }, none)

/-- The key-value copy taken by `Engine.Compact` via `Store.Range` (all
non-expired pairs). -/
def rangeData (now : Int) (d : StoreData) : List (String × String) :=
  (d.filter (fun p => !(p.2.isExpired now))).map (fun p => (p.1, p.2.value))

/-- `Engine.Compact`: write the snapshot; only if that succeeded, truncate
the WAL; only if that succeeded, reset the entry count. -/
def engineCompact (snapOk truncOk : Bool) (now : Int) (e : EngineState) :
    EngineState × Option EngineErr :=
  let data := rangeData now e.store
  if snapOk then
    let e1 := { e with snapshot := some data }
    if truncOk then
      ({ e1 with wal := [], walEntryCount := 0 }, none)
    else (e1, some .walIo)
  else (e, some .snapshotIo)

/-- Applying one replayed WAL record to the store, as in `Engine.recover`. -/
def applyRecord (d : StoreData) (r : Record) : StoreData :=
  match r.op with
  | .set => storeSet d r.key r.value
  | .delete => (storeDelete d r.key).1
  | .clear => storeClear d

/-- `Engine.recover`: import the snapshot data with `store.Set`, then replay
every WAL record.  Returns the recovered keyspace. -/
def recoverStore (snap : Option (List (String × String))) (records : List Record) : StoreData :=
  let st0 : StoreData :=
    match snap with
    | none => []
    | some data => data.foldl (fun d kv => storeSet d kv.1 kv.2) []
  records.foldl applyRecord st0

/-! ### Command processing (pkg/api/api.go)

Tokenization is out of scope (spec §1); commands are modelled from their
parsed arguments on.  Go `int64` arithmetic wraps (two's complement), which
`wrap64` makes explicit. -/

/-- Two's-complement wrap of an integer into the `int64` range (`%` on `Int`
is the Euclidean mod, so the result is always in `[-2^63, 2^63)`). -/
def wrap64 (n : Int) : Int :=
  (n + 2 ^ 63) % 2 ^ 64 - 2 ^ 63

/-- `strconv.FormatInt(i, 10)`: minus sign and decimal digits. -/
def formatInt64 (i : Int) : String :=
  toString i

/-- `int64(d.Seconds())` for a non-negative `time.Duration`: seconds
truncated toward zero.  (`Seconds` divides by `1e9` in `float64`; for the
non-negative nanosecond counts reaching this call the truncated value lands
in `[d/1e9 - 1, d/1e9]`, and at the concrete inputs used below the float
computation is exact, so integer division models it.) -/
def durTruncSeconds (d : Int) : Int :=
  ((d.toNat / 1000000000 : Nat) : Int)

/-- The `TTL k` command (`processCommand`, case `"TTL"`): a `Get` (with its
lazy-expiration side effect), `-2` if absent, `-1` if no TTL, otherwise the
remaining duration truncated to seconds.  Returns the store and the integer
the server prints. -/
def ttlCommand (now : Int) (d : StoreData) (key : String) : StoreData × Int :=
  let p := storeGet now d key
  match p.2 with
  | none => (p.1, -2)
  | some _ =>
    let t := storeTTL now p.1 key
    if t = 0 then (p.1, -1)
    else (p.1, durTruncSeconds t)

/-- The store effect of a successful `SETEX key seconds value`
(`processCommand` case `"SETEX"` with `seconds > 0` and the WAL append
succeeding): `Engine.SetWithTTL` with
`ttl := time.Duration(seconds) * time.Second`, an `int64` product. -/
def setexStore (now : Int) (d : StoreData) (key value : String) (seconds : Int) : StoreData :=
  storeSetWithTTL now d key value (wrap64 (seconds * 1000000000))

/-- The `INCR key` command: `Get`, parse as `int64` (an absent key counts as
`0`), increment with `int64` wrap-around, `Set`, and print the new value.
Returns the engine state and the response line. -/
def incrCommand (walOk : Bool) (now ts : Int) (e : EngineState) (key : String) :
    EngineState × String :=
  let p := engineGet now e key
  let cur? : Option Int :=
    match p.2 with
    | none => some 0
    | some v => parseInt64 v
  match cur? with
  | none => (p.1, "-ERR value is not an integer")
  | some cur =>
    let newCur := wrap64 (cur + 1)
    match engineSet walOk ts p.1 key (formatInt64 newCur) with
    | (e2, some _) => (e2, "-ERR failed to set")
    | (e2, none) => (e2, formatInt64 newCur)

/-- The `DECR key` command: as `INCR` but decrementing. -/
def decrCommand (walOk : Bool) (now ts : Int) (e : EngineState) (key : String) :
    EngineState × String :=
  let p := engineGet now e key
  let cur? : Option Int :=
    match p.2 with
    | none => some 0
    | some v => parseInt64 v
  match cur? with
  | none => (p.1, "-ERR value is not an integer")
  | some cur =>
    let newCur := wrap64 (cur - 1)
    match engineSet walOk ts p.1 key (formatInt64 newCur) with
    | (e2, some _) => (e2, "-ERR failed to set")
    | (e2, none) => (e2, formatInt64 newCur)

/-- The `MSET k1 v1 k2 v2 …` loop: `Engine.Set` for each pair in order,
stopping with an error response at the first failure.  `walOk i` tells
whether the `i`-th WAL append would succeed; `i` counts the sets already
performed. -/
def msetRun (walOk : Nat → Bool) (i : Nat) (ts : Int) (e : EngineState)
    (pairs : List (String × String)) : EngineState × Option EngineErr :=
  match pairs with
  | [] => (e, none)
  | (k, v) :: rest =>
    match engineSet (walOk i) ts e k v with
    | (e', none) => msetRun walOk (i + 1) ts e' rest
    | (e', some err) => (e', some err)

/-! ### Properties and sample states used by the theorems below -/

/-- Every entry of the keyspace is persistent (no expiry). -/
def allPersistent (d : StoreData) : Prop :=
  ∀ k ent, lookupAssoc d k = some ent → ent.expiresAt = 0

/-- A sample engine state holding one live persistent key `"k"`. -/
def stateLive : EngineState :=
  { store := [("k", { value := "v", expiresAt := 0 })], wal := [],
    walEntryCount := 0, snapshot := none }

/-- A sample engine state whose single entry for `"k"` expires at `t = 100`
(so it is expired at any `now > 100`). -/
def stateExpired : EngineState :=
  { store := [("k", { value := "v", expiresAt := 100 })], wal := [],
    walEntryCount := 0, snapshot := none }

/-- A sample engine state whose key `"c"` holds the maximum `int64`. -/
def stateMaxInt : EngineState :=
  { store := [("c", { value := "9223372036854775807", expiresAt := 0 })], wal := [],
    walEntryCount := 0, snapshot := none }

/-- A sample engine state whose key `"c"` holds the minimum `int64`. -/
def stateMinInt : EngineState :=
  { store := [("c", { value := "-9223372036854775808", expiresAt := 0 })], wal := [],
    walEntryCount := 0, snapshot := none }

/-- A sample `MSET k1 v1 k2 v2` run from an empty engine in which the first
WAL append succeeds and the second fails. -/
def msetExample : EngineState × Option EngineErr :=
  msetRun (fun i => i == 0) 0 7
    { store := [], wal := [], walEntryCount := 0, snapshot := none }
    [("k1", "v1"), ("k2", "v2")]


/-! ### SCAN iteration lemmas -/

/-- A key visited by SCAN is a key of the map. -/
theorem mem_scanAllKeys (now : Int) (pattern : String) :
    ∀ (d : StoreData) (k : String), k ∈ scanAllKeys now d pattern → k ∈ d.map Prod.fst := by
  intro d
  induction d with
  | nil => intro k hk; simp [scanAllKeys] at hk
  | cons p rest ih =>
    intro k hk
    obtain ⟨k', e'⟩ := p
    rw [show scanAllKeys now ((k', e') :: rest) pattern =
        (if e'.isExpired now then scanAllKeys now rest pattern
         else if matchPattern pattern k' then k' :: scanAllKeys now rest pattern
         else scanAllKeys now rest pattern) from rfl] at hk
    simp only [List.map_cons, List.mem_cons]
    by_cases hexp : e'.isExpired now
    · rw [if_pos hexp] at hk
      exact Or.inr (ih k hk)
    · rw [if_neg hexp] at hk
      by_cases hmt : matchPattern pattern k'
      · rw [if_pos hmt] at hk
        rcases List.mem_cons.mp hk with h | h
        · exact Or.inl h
        · exact Or.inr (ih k h)
      · rw [if_neg hmt] at hk
        exact Or.inr (ih k hk)

/-- Slicing `[c, e)` out of a list and appending the rest of the list from
`e` gives the rest of the list from `c`. -/
theorem drop_take_append_drop {α : Type} (l : List α) (c e : Nat) (h1 : c ≤ e)
    (h2 : e ≤ l.length) :
    (l.take e).drop c ++ l.drop e = l.drop c := by
  conv_rhs => rw [← List.take_append_drop e l]
  rw [List.drop_append_eq_append_drop]
  have hlen : (l.take e).length = e := by
    rw [List.length_take]; omega
  rw [hlen, Nat.sub_eq_zero_of_le h1, List.drop_zero]

/-- Iterating SCAN from any cursor yields exactly the tail of the matching
key list from that cursor on (bounded-measure induction). -/
theorem scanIter_eq_drop_aux (now : Int) (d : StoreData) (pattern : String) (count : Nat) :
    ∀ (M cursor : Nat), (scanAllKeys now d pattern).length - cursor ≤ M →
      scanIter now d pattern count cursor = (scanAllKeys now d pattern).drop cursor := by
  intro M
  induction M with
  | zero =>
    intro cursor h0
    have hc : cursor ≥ (scanAllKeys now d pattern).length := by omega
    have hs : storeScan now d cursor pattern count = (0, [], false) := by
      unfold storeScan; simp [hc]
    rw [scanIter, hs]
    simp [List.drop_eq_nil_of_le hc]
  | succ M ih =>
    intro cursor h0
    by_cases hc : cursor ≥ (scanAllKeys now d pattern).length
    · have hs : storeScan now d cursor pattern count = (0, [], false) := by
        unfold storeScan; simp [hc]
      rw [scanIter, hs]
      simp [List.drop_eq_nil_of_le hc]
    · have hcnt : 1 ≤ (if count = 0 then 10 else count) := by
        by_cases h0 : count = 0 <;> simp [h0] <;> omega
      by_cases hm : cursor + (if count = 0 then 10 else count) < (scanAllKeys now d pattern).length
      · have hle : ¬ (cursor + (if count = 0 then 10 else count) >
            (scanAllKeys now d pattern).length) := by omega
        have hs : storeScan now d cursor pattern count =
            (cursor + (if count = 0 then 10 else count),
             ((scanAllKeys now d pattern).take
                (cursor + (if count = 0 then 10 else count))).drop cursor, true) := by
          unfold storeScan; simp [hc, hm, hle]
        have hne : ¬ (cursor + (if count = 0 then 10 else count) = 0) := by omega
        rw [scanIter, hs]
        simp only [hne, dite_false]
        rw [ih (cursor + (if count = 0 then 10 else count)) (by omega)]
        exact drop_take_append_drop _ cursor _ (by omega) (by omega)
      · have he2 : (if (cursor + (if count = 0 then 10 else count)) >
              (scanAllKeys now d pattern).length
            then (scanAllKeys now d pattern).length
            else cursor + (if count = 0 then 10 else count)) =
              (scanAllKeys now d pattern).length ∨
            (cursor + (if count = 0 then 10 else count)) =
              (scanAllKeys now d pattern).length := by
          by_cases hgt : (cursor + (if count = 0 then 10 else count)) >
              (scanAllKeys now d pattern).length
          · left; simp [hgt]
          · right; omega
        have hs : storeScan now d cursor pattern count =
            (0, ((scanAllKeys now d pattern).take
              (scanAllKeys now d pattern).length).drop cursor, false) := by
          unfold storeScan
          simp only [ge_iff_le, hc, if_false, hm, decide_eq_true_eq]
          rcases he2 with h | h
          · simp [hm, h]
          · rw [← h] at hm ⊢
            simp [hm, h]
        rw [scanIter, hs]
        simp [List.take_length]

/-- Iterating SCAN from cursor `0` on a quiescent keyspace yields exactly
the list of matching keys. -/
theorem scanIter_eq_scanAllKeys (now : Int) (d : StoreData) (pattern : String) (count : Nat) :
    scanIter now d pattern count 0 = scanAllKeys now d pattern := by
  have := scanIter_eq_drop_aux now d pattern count (scanAllKeys now d pattern).length 0
    (by omega)
  simpa using this


theorem scanVisible_nil (now : Int) (pattern k : String) :
    scanVisible now [] pattern k = false := rfl

theorem scanVisible_cons (now : Int) (pattern k k' : String) (e' : Entry) (rest : StoreData) :
    scanVisible now ((k', e') :: rest) pattern k =
      if k' = k then (!(e'.isExpired now) && matchPattern pattern k)
      else scanVisible now rest pattern k := by
  unfold scanVisible
  rw [show lookupAssoc ((k', e') :: rest) k =
      (if k' = k then some e' else lookupAssoc rest k) from rfl]
  by_cases h : k' = k
  · rw [if_pos h, if_pos h]
  · rw [if_neg h, if_neg h]

/-- On a map with unique keys, each visible key occurs exactly once in the
list SCAN enumerates. -/
theorem count_scanAllKeys (now : Int) (pattern : String) :
    ∀ (d : StoreData), (d.map Prod.fst).Nodup → ∀ k : String,
      (scanAllKeys now d pattern).count k =
        if scanVisible now d pattern k then 1 else 0 := by
  intro d
  induction d with
  | nil => intro _ k; simp [scanAllKeys, scanVisible_nil]
  | cons p rest ih =>
    obtain ⟨k', e'⟩ := p
    intro hnd k
    have hnd' : (rest.map Prod.fst).Nodup := by
      simp only [List.map_cons, List.nodup_cons] at hnd
      exact hnd.2
    have hk' : k' ∉ rest.map Prod.fst := by
      simp only [List.map_cons, List.nodup_cons] at hnd
      exact hnd.1
    have hnotmem : k' ∉ scanAllKeys now rest pattern := fun hmem =>
      hk' (mem_scanAllKeys now pattern rest k' hmem)
    rw [scanVisible_cons]
    rw [show scanAllKeys now ((k', e') :: rest) pattern =
        (if e'.isExpired now then scanAllKeys now rest pattern
         else if matchPattern pattern k' then k' :: scanAllKeys now rest pattern
         else scanAllKeys now rest pattern) from rfl]
    by_cases hexp : e'.isExpired now
    · rw [if_pos hexp]
      by_cases hkk : k' = k
      · subst hkk
        rw [if_pos rfl, List.count_eq_zero.mpr hnotmem]
        simp [hexp]
      · rw [if_neg hkk, ih hnd' k]
    · rw [if_neg hexp]
      by_cases hmt : matchPattern pattern k'
      · rw [if_pos hmt]
        by_cases hkk : k' = k
        · subst hkk
          rw [if_pos rfl, List.count_cons_self, List.count_eq_zero.mpr hnotmem]
          simp only [Bool.not_eq_true'] at hexp
          simp [hexp, hmt]
        · rw [if_neg hkk, List.count_cons_of_ne (fun h => hkk h.symm), ih hnd' k]
      · rw [if_neg hmt]
        by_cases hkk : k' = k
        · subst hkk
          rw [if_pos rfl, List.count_eq_zero.mpr hnotmem]
          simp [hmt]
        · rw [if_neg hkk, ih hnd' k]


/-! ### Association-list lemmas -/

/-- Lookup after a map assignment. -/
theorem lookupAssoc_setAssoc : ∀ (d : StoreData) (k' k : String) (ent : Entry),
    lookupAssoc (setAssoc d k' ent) k = if k' = k then some ent else lookupAssoc d k := by
  intro d
  induction d with
  | nil => intro k' k ent; rfl
  | cons p rest ih =>
    intro k' k ent
    obtain ⟨k2, e2⟩ := p
    show lookupAssoc (if k2 = k' then (k', ent) :: rest else (k2, e2) :: setAssoc rest k' ent) k
      = _
    by_cases h2 : k2 = k'
    · rw [if_pos h2]
      show (if k' = k then some ent else lookupAssoc rest k) = _
      by_cases hk : k' = k
      · rw [if_pos hk, if_pos hk]
      · rw [if_neg hk, if_neg hk]
        show _ = if k2 = k then some e2 else lookupAssoc rest k
        rw [if_neg (h2 ▸ hk)]
    · rw [if_neg h2]
      show (if k2 = k then some e2 else lookupAssoc (setAssoc rest k' ent) k) = _
      by_cases h3 : k2 = k
      · have hk : ¬ k' = k := fun he => h2 (h3.trans he.symm)
        rw [if_pos h3, if_neg hk]
        show _ = if k2 = k then some e2 else lookupAssoc rest k
        rw [if_pos h3]
      · rw [if_neg h3, ih]
        by_cases hk : k' = k
        · rw [if_pos hk, if_pos hk]
        · rw [if_neg hk, if_neg hk]
          show _ = if k2 = k then some e2 else lookupAssoc rest k
          rw [if_neg h3]

/-- Lookup after a map deletion. -/
theorem lookupAssoc_delAssoc : ∀ (d : StoreData) (k' k : String),
    lookupAssoc (delAssoc d k') k = if k' = k then none else lookupAssoc d k := by
  intro d
  induction d with
  | nil =>
    intro k' k
    show (none : Option Entry) = _
    by_cases hk : k' = k
    · rw [if_pos hk]
    · rw [if_neg hk]; rfl
  | cons p rest ih =>
    intro k' k
    obtain ⟨k2, e2⟩ := p
    show lookupAssoc (if k2 = k' then delAssoc rest k' else (k2, e2) :: delAssoc rest k') k = _
    by_cases h2 : k2 = k'
    · rw [if_pos h2, ih]
      by_cases hk : k' = k
      · rw [if_pos hk, if_pos hk]
      · rw [if_neg hk, if_neg hk]
        show _ = if k2 = k then some e2 else lookupAssoc rest k
        rw [if_neg (h2 ▸ hk)]
    · rw [if_neg h2]
      show (if k2 = k then some e2 else lookupAssoc (delAssoc rest k') k) = _
      by_cases h3 : k2 = k
      · have hk : ¬ k' = k := fun he => h2 (h3.trans he.symm)
        rw [if_pos h3, if_neg hk]
        show _ = if k2 = k then some e2 else lookupAssoc rest k
        rw [if_pos h3]
      · rw [if_neg h3, ih]
        by_cases hk : k' = k
        · rw [if_pos hk, if_pos hk]
        · rw [if_neg hk, if_neg hk]
          show _ = if k2 = k then some e2 else lookupAssoc rest k
          rw [if_neg h3]

/-- A hit (`some` result) from `Store.Get` leaves the map untouched. -/
theorem storeGet_isSome_fst (now : Int) (d : StoreData) (k : String)
    (h : (storeGet now d k).2.isSome = true) : (storeGet now d k).1 = d := by
  unfold storeGet at h ⊢
  cases hl : lookupAssoc d k with
  | none => simp only [hl] at h; simp at h
  | some ent =>
    simp only [hl] at h ⊢
    by_cases hexp : ent.isExpired now
    · rw [if_pos hexp] at h; simp at h
    · rw [if_neg hexp]

/-- `wrap64` is the identity on the `int64` range. -/
theorem wrap64_eq_self (x : Int) (h1 : -(2 ^ 63) ≤ x) (h2 : x < 2 ^ 63) : wrap64 x = x := by
  unfold wrap64
  rw [Int.emod_eq_of_lt (by omega) (by omega)]
  omega

/-- An entry with a nonzero expiry not yet strictly passed is not expired. -/
theorem isExpired_eq_false (now x : Int) (v : String) (h0 : ¬ x = 0) (hle : now ≤ x) :
    Entry.isExpired now { value := v, expiresAt := x } = false := by
  unfold Entry.isExpired
  rw [if_neg h0]
  simp only [decide_eq_false_iff_not]
  omega

/-- The remaining TTL of an entry with nonzero expiry still in the future. -/
theorem ttlRemaining_eq (now x : Int) (v : String) (h0 : ¬ x = 0) (hlt : now < x) :
    Entry.ttlRemaining now { value := v, expiresAt := x } = x - now := by
  unfold Entry.ttlRemaining
  rw [if_neg h0]
  show (if x - now ≤ 0 then (0 : Int) else x - now) = x - now
  rw [if_neg (by omega : ¬ (x - now ≤ 0))]

/-! ### All-persistent invariant of recovery -/

theorem allPersistent_nil : allPersistent [] := by
  intro k ent h
  simp [lookupAssoc] at h

theorem allPersistent_storeSet {d : StoreData} (h : allPersistent d) (k' v : String) :
    allPersistent (storeSet d k' v) := by
  intro k ent hl
  unfold storeSet at hl
  rw [lookupAssoc_setAssoc] at hl
  by_cases hk : k' = k
  · rw [if_pos hk] at hl
    cases hl
    rfl
  · rw [if_neg hk] at hl
    exact h k ent hl

theorem allPersistent_delAssoc {d : StoreData} (h : allPersistent d) (k' : String) :
    allPersistent (delAssoc d k') := by
  intro k ent hl
  rw [lookupAssoc_delAssoc] at hl
  by_cases hk : k' = k
  · rw [if_pos hk] at hl
    cases hl
  · rw [if_neg hk] at hl
    exact h k ent hl

theorem allPersistent_applyRecord {d : StoreData} (h : allPersistent d) (r : Record) :
    allPersistent (applyRecord d r) := by
  unfold applyRecord
  cases r.op with
  | set => exact allPersistent_storeSet h _ _
  | delete => exact allPersistent_delAssoc h _
  | clear => exact allPersistent_nil

theorem allPersistent_foldl_apply : ∀ (records : List Record) (d : StoreData),
    allPersistent d → allPersistent (records.foldl applyRecord d) := by
  intro records
  induction records with
  | nil => intro d h; exact h
  | cons r rest ih => intro d h; exact ih _ (allPersistent_applyRecord h r)

theorem allPersistent_foldl_set : ∀ (data : List (String × String)) (d : StoreData),
    allPersistent d →
    allPersistent (data.foldl (fun d kv => storeSet d kv.1 kv.2) d) := by
  intro data
  induction data with
  | nil => intro d h; exact h
  | cons kv rest ih => intro d h; exact ih _ (allPersistent_storeSet h kv.1 kv.2)

/-- Every entry of a recovered keyspace is persistent: snapshot import uses
`store.Set` and WAL replay only `SET`/`DELETE`/`CLEAR`, none of which carry
an expiry. -/
theorem allPersistent_recoverStore (snap : Option (List (String × String)))
    (records : List Record) : allPersistent (recoverStore snap records) := by
  unfold recoverStore
  apply allPersistent_foldl_apply
  cases snap with
  | none => exact allPersistent_nil
  | some data => exact allPersistent_foldl_set data [] allPersistent_nil


/-! ### The claims -/

set_option maxRecDepth 4000 in
/-- C1: the claim states that for every record with op in
{SET, DELETE, CLEAR} and arbitrary key and value strings, `Decode ∘ Encode`
is the identity.  It is not: for a value containing the two characters
backslash-`n`, `escape` produces `\\n`, whose `unescape` (three sequential
`ReplaceAll` passes, `\n` first) collapses to backslash-newline instead of
the original, so the checksum recomputed by `Decode` differs from the stored
one and decoding fails.  This contradicts the source's own doc comment
("unescape reverses the escaping"), its round-trip tests, and spec invariant
L5 — a code bug, exhibited here at a concrete record. -/
theorem c1_encode_decode_fails_on_backslash_n :
    unescape (escape ("\\n".toList)) ≠ "\\n".toList ∧
    Decode (Encode (NewRecord 0 .set "k" "\\n")) = none := by
  constructor
  · decide
  · decide

/-- C2: if the WAL append fails, `set`, `set_with_ttl`, `clear` and `delete`
each return an error and leave the engine state (keyspace, WAL, counter)
completely unchanged; the failed delete reports the key as not deleted.  For
delete the hypothesis states that the WAL append is actually attempted: the
key is present and unexpired (otherwise the source returns `(false, nil)`
before touching the WAL). -/
theorem c2_wal_failure_no_mutation (now ts ttl : Int) (e : EngineState) (k v : String)
    (hdel : (storeGet now e.store k).2.isSome = true) :
    engineSet false ts e k v = (e, some .walIo) ∧
    engineSetWithTTL false now ts e k v ttl = (e, some .walIo) ∧
    engineClear false ts e = (e, some .walIo) ∧
    engineDelete false now ts e k = (e, false, some .walIo) := by
  refine ⟨rfl, rfl, rfl, ?_⟩
  unfold engineDelete
  obtain ⟨val, hv⟩ := Option.isSome_iff_exists.mp hdel
  simp only [hv]
  rw [show walWrite false e.wal (NewRecord ts .delete k "") = none from rfl]
  rw [storeGet_isSome_fst now e.store k hdel]

theorem c2_wal_failure_no_mutation_witness :
    ((storeGet 0 stateLive.store "k").2.isSome = true) ∧
    (engineSet false 3 stateLive "k" "w" = (stateLive, some .walIo) ∧
     engineSetWithTTL false 0 3 stateLive "k" "w" 5 = (stateLive, some .walIo) ∧
     engineClear false 3 stateLive = (stateLive, some .walIo) ∧
     engineDelete false 0 3 stateLive "k" = (stateLive, false, some .walIo)) :=
  ⟨by decide, c2_wal_failure_no_mutation 0 3 5 stateLive "k" "w" (by decide)⟩

/-- C3: `set_with_ttl` appends a WAL record built by
`NewRecord(OpSet, key, value)` — carrying only the operation SET, the key
and the value (the `Record` structure has no TTL field at all); every entry
of a recovered keyspace (snapshot load plus WAL replay) is persistent; and
replaying a log ending with that record restores the key as a persistent
entry with no expiry. -/
theorem c3_setex_wal_record_no_ttl (now ts ttl : Int) (e : EngineState) (k v : String)
    (snap : Option (List (String × String))) (records : List Record) :
    (engineSetWithTTL true now ts e k v ttl).1.wal = e.wal ++ [NewRecord ts .set k v] ∧
    allPersistent (recoverStore snap records) ∧
    lookupAssoc (recoverStore snap (records ++ [NewRecord ts .set k v])) k
      = some { value := v, expiresAt := 0 } := by
  refine ⟨rfl, allPersistent_recoverStore snap records, ?_⟩
  unfold recoverStore
  rw [List.foldl_append]
  show lookupAssoc (storeSet _ k v) k = _
  unfold storeSet
  rw [lookupAssoc_setAssoc, if_pos rfl]
  rfl

theorem c3_setex_wal_record_no_ttl_witness :
    (engineSetWithTTL true 0 7 stateLive "s" "x" 5).1.wal
        = stateLive.wal ++ [NewRecord 7 .set "s" "x"] ∧
    allPersistent (recoverStore none [NewRecord 7 .set "s" "x"]) ∧
    lookupAssoc (recoverStore none ([NewRecord 7 .set "s" "x"] ++ [NewRecord 7 .set "s" "x"]))
        "s" = some { value := "x", expiresAt := 0 } :=
  c3_setex_wal_record_no_ttl 0 7 5 stateLive "s" "x" none [NewRecord 7 .set "s" "x"]

/-- C4: if the snapshot write fails, `Compact` returns an error with the
engine state (in particular the WAL and its entry count) unchanged; the WAL
is truncated or the entry count reset only when the snapshot write (and the
truncation) succeeded. -/
theorem c4_compact_requires_snapshot_success (snapOk truncOk : Bool) (now : Int)
    (e : EngineState) :
    (snapOk = false → engineCompact snapOk truncOk now e = (e, some .snapshotIo)) ∧
    (∀ e' r, engineCompact snapOk truncOk now e = (e', r) →
      (e'.wal ≠ e.wal ∨ e'.walEntryCount ≠ e.walEntryCount) →
      snapOk = true ∧ truncOk = true ∧ e'.wal = [] ∧ e'.walEntryCount = 0) := by
  constructor
  · intro h
    subst h
    rfl
  · intro e' r heq hne
    cases snapOk with
    | false =>
      rw [show engineCompact false truncOk now e = (e, some .snapshotIo) from rfl] at heq
      injection heq with h1 h2
      subst h1
      rcases hne with h | h <;> exact absurd rfl h
    | true =>
      cases truncOk with
      | false =>
        rw [show engineCompact true false now e =
            ({ e with snapshot := some (rangeData now e.store) }, some .walIo) from rfl] at heq
        injection heq with h1 h2
        subst h1
        rcases hne with h | h <;> exact absurd rfl h
      | true =>
        rw [show engineCompact true true now e =
            ({ e with snapshot := some (rangeData now e.store), wal := [], walEntryCount := 0 },
              none) from rfl] at heq
        injection heq with h1 h2
        subst h1
        exact ⟨rfl, rfl, rfl, rfl⟩

theorem c4_compact_requires_snapshot_success_witness :
    engineCompact false true 0 stateLive = (stateLive, some .snapshotIo) :=
  (c4_compact_requires_snapshot_success false true 0 stateLive).1 rfl

/-- C5 counterexample: a `get` issued exactly at the expiry timestamp
(`now = t = 100`, hence at wall time ≥ t) still returns the value and leaves
the entry in place — `Entry.IsExpired` compares with strict `>`, so the
claim's "greater than or equal to t" fails at equality. -/
theorem c5_get_at_expiry_counterexample :
    storeGet 100 [("k", { value := "v", expiresAt := 100 })] "k"
      = ([("k", { value := "v", expiresAt := 100 })], some "v") := by decide

/-- C5 (amended): for a key whose entry has expiry timestamp `t ≠ 0`, a get
issued at wall-clock time STRICTLY greater than `t` returns absent and
removes the entry from the keyspace. -/
theorem c5_lazy_expiration (now : Int) (d : StoreData) (k : String) (ent : Entry)
    (hl : lookupAssoc d k = some ent) (h0 : ent.expiresAt ≠ 0) (ht : ent.expiresAt < now) :
    storeGet now d k = (delAssoc d k, none) ∧ lookupAssoc (storeGet now d k).1 k = none := by
  have hexp : ent.isExpired now = true := by
    unfold Entry.isExpired
    rw [if_neg h0]
    simpa using ht
  have hget : storeGet now d k = (delAssoc d k, none) := by
    unfold storeGet
    simp only [hl]
    rw [if_pos hexp]
  refine ⟨hget, ?_⟩
  rw [hget, lookupAssoc_delAssoc, if_pos rfl]

theorem c5_lazy_expiration_witness :
    (lookupAssoc ([("k", { value := "v", expiresAt := 100 })] : StoreData) "k"
        = some { value := "v", expiresAt := 100 }) ∧
    (storeGet 101 [("k", { value := "v", expiresAt := 100 })] "k"
        = (delAssoc [("k", { value := "v", expiresAt := 100 })] "k", none) ∧
     lookupAssoc (storeGet 101 [("k", { value := "v", expiresAt := 100 })] "k").1 "k"
        = none) :=
  ⟨by decide, c5_lazy_expiration 101 [("k", { value := "v", expiresAt := 100 })] "k"
    { value := "v", expiresAt := 100 } (by decide) (by decide) (by decide)⟩

/-- C6 counterexample: `Store.Delete` of a present-but-expired entry
(expired at `now = 200`) returns `true`, where the claim requires expired
keys to count as absent (`false`) — the store-level delete has no expiry
check. -/
theorem c6_delete_expired_counterexample :
    Entry.isExpired 200 { value := "v", expiresAt := 100 } = true ∧
    (storeDelete [("k", { value := "v", expiresAt := 100 })] "k").2 = true := by decide

/-- C6 (amended): `Store.Delete` returns `true` iff the key is present in
the map, counting present-but-expired entries as existing; it is the
engine-level delete, which consults `Get` first, that reports `false` for an
expired key (lazily removing it, without error). -/
theorem c6_delete_existence (d : StoreData) (k : String) :
    ((storeDelete d k).2 = (lookupAssoc d k).isSome) ∧
    (∀ (walOk : Bool) (now ts : Int) (e : EngineState) (ent : Entry),
      lookupAssoc e.store k = some ent → ent.isExpired now = true →
      engineDelete walOk now ts e k
        = ({ e with store := delAssoc e.store k }, false, none)) := by
  refine ⟨rfl, ?_⟩
  intro walOk now ts e ent hl hexp
  unfold engineDelete
  have hget : storeGet now e.store k = (delAssoc e.store k, none) := by
    unfold storeGet
    simp only [hl]
    rw [if_pos hexp]
  simp only [hget]

theorem c6_delete_existence_witness :
    ((storeDelete [("k", { value := "v", expiresAt := 100 })] "k").2
        = (lookupAssoc ([("k", { value := "v", expiresAt := 100 })] : StoreData) "k").isSome) ∧
    (engineDelete true 200 0 stateExpired "k"
        = ({ stateExpired with store := delAssoc stateExpired.store "k" }, false, none)) :=
  ⟨(c6_delete_existence [("k", { value := "v", expiresAt := 100 })] "k").1,
   (c6_delete_existence [] "k").2 true 200 0 stateExpired
     { value := "v", expiresAt := 100 } (by decide) (by decide)⟩

/-- C7 counterexample: `SETEX k 1 v` at `now = 0` followed by `TTL k` one
nanosecond later returns `0` — not in the claimed interval `[1, 1]` — because
the remaining duration `1e9 - 1` ns truncates to `0` seconds. -/
theorem c7_ttl_zero_counterexample :
    (ttlCommand 1 (setexStore 0 [] "k" "v" 1) "k").2 = 0 ∧
    ¬ (1 ≤ (ttlCommand 1 (setexStore 0 [] "k" "v" 1) "k").2 ∧
       (ttlCommand 1 (setexStore 0 [] "k" "v" 1) "k").2 ≤ 1) := by decide

/-- C7 (amended): immediately after `SETEX k n v` (executed at wall time
`now0 ≥ 0`, with `1 ≤ n ≤ 9223372036` so `n * 1e9` does not overflow
`int64`), a `TTL k` issued `δ` nanoseconds later with `0 ≤ δ < 1e9` returns
an integer in `[n − 1, n]`: `n` exactly at `δ = 0`, and `n − 1` for any
positive sub-second delay (hence `0 ∉ [1, n]` when `n = 1`). -/
theorem c7_ttl_after_setex (n δ now0 : Int) (d : StoreData) (k v : String)
    (hn1 : 1 ≤ n) (hn2 : n ≤ 9223372036) (hnow : 0 ≤ now0)
    (hd1 : 0 ≤ δ) (hd2 : δ < 1000000000) :
    n - 1 ≤ (ttlCommand (now0 + δ) (setexStore now0 d k v n) k).2 ∧
    (ttlCommand (now0 + δ) (setexStore now0 d k v n) k).2 ≤ n := by
  have hwrap : wrap64 (n * 1000000000) = n * 1000000000 :=
    wrap64_eq_self _ (by omega) (by omega)
  have hl : lookupAssoc (setexStore now0 d k v n) k
      = some { value := v, expiresAt := now0 + n * 1000000000 } := by
    unfold setexStore storeSetWithTTL
    rw [lookupAssoc_setAssoc, if_pos rfl]
    unfold NewEntryWithTTL
    rw [hwrap, if_pos (by omega : n * 1000000000 > 0)]
  have hexpv : ({ value := v, expiresAt := now0 + n * 1000000000 } : Entry).isExpired (now0 + δ)
      = false :=
    isExpired_eq_false (now0 + δ) (now0 + n * 1000000000) v (by omega) (by omega)
  have hget : storeGet (now0 + δ) (setexStore now0 d k v n) k
      = (setexStore now0 d k v n, some v) := by
    unfold storeGet
    simp only [hl]
    rw [if_neg (by simp [hexpv])]
  have httlval : storeTTL (now0 + δ) (setexStore now0 d k v n) k = n * 1000000000 - δ := by
    unfold storeTTL
    simp only [hl]
    rw [if_neg (by simp [hexpv])]
    rw [ttlRemaining_eq (now0 + δ) (now0 + n * 1000000000) v (by omega) (by omega)]
    omega
  unfold ttlCommand
  simp only [hget]
  rw [httlval]
  rw [if_neg (by omega : ¬ (n * 1000000000 - δ = 0))]
  unfold durTruncSeconds
  obtain ⟨nn, rfl⟩ : ∃ nn : Nat, n = (nn : Int) :=
    ⟨n.toNat, (Int.toNat_of_nonneg (by omega)).symm⟩
  obtain ⟨dd, rfl⟩ : ∃ dd : Nat, δ = (dd : Int) :=
    ⟨δ.toNat, (Int.toNat_of_nonneg hd1).symm⟩
  have htn : (((nn : Int)) * 1000000000 - ((dd : Int))).toNat = nn * 1000000000 - dd := by
    omega
  rw [htn]
  have hnn1 : 1 ≤ nn := by omega
  have hdd2 : dd < 1000000000 := by omega
  have hb1 : nn - 1 ≤ (nn * 1000000000 - dd) / 1000000000 :=
    (Nat.le_div_iff_mul_le (by omega)).mpr (by omega)
  have hb2 : (nn * 1000000000 - dd) / 1000000000 ≤ nn := by
    have h1 : (nn * 1000000000 - dd) / 1000000000 ≤ nn * 1000000000 / 1000000000 :=
      Nat.div_le_div_right (Nat.sub_le _ _)
    rw [Nat.mul_div_cancel nn (by omega)] at h1
    exact h1
  revert hb1 hb2
  generalize (nn * 1000000000 - dd) / 1000000000 = q
  intro hb1 hb2
  constructor <;> omega

theorem c7_ttl_after_setex_witness :
    ((1 : Int) ≤ 3 ∧ (3 : Int) ≤ 9223372036 ∧ (0 : Int) ≤ 0 ∧ (0 : Int) ≤ 5 ∧
      (5 : Int) < 1000000000) ∧
    (3 - 1 ≤ (ttlCommand (0 + 5) (setexStore 0 [] "k" "v" 3) "k").2 ∧
     (ttlCommand (0 + 5) (setexStore 0 [] "k" "v" 3) "k").2 ≤ 3) :=
  ⟨by decide, c7_ttl_after_setex 3 5 0 [] "k" "v" (by decide) (by decide) (by decide)
    (by decide) (by decide)⟩

/-- C8 counterexample: the claimed exactly-once guarantee fails on a
quiescent keyspace.  `Store.Scan` re-materializes `allKeys` by ranging over
the map on every call, and Go randomizes map iteration order per range
loop; the two association lists below are the same map (a permutation, both
keys live and matching `*`), enumerated as `[a, b]` by the first call and
as `[b, a]` by the second.  The full iteration with COUNT 1 — call at
cursor 0 returns batch `["a"]` and cursor 1; call at cursor 1 returns batch
`["a"]` and cursor 0, ending the iteration — visits `"a"` twice and the
visible matching key `"b"` not at all. -/
theorem c8_scan_reorder_counterexample :
    ([("a", { value := "1", expiresAt := 0 }), ("b", { value := "2", expiresAt := 0 })]
        : StoreData).Perm
      [("b", { value := "2", expiresAt := 0 }), ("a", { value := "1", expiresAt := 0 })] ∧
    storeScan 0 [("a", { value := "1", expiresAt := 0 }),
        ("b", { value := "2", expiresAt := 0 })] 0 "*" 1 = (1, ["a"], true) ∧
    storeScan 0 [("b", { value := "2", expiresAt := 0 }),
        ("a", { value := "1", expiresAt := 0 })] 1 "*" 1 = (0, ["a"], false) ∧
    (["a"] ++ ["a"]).count "a" = 2 ∧
    (["a"] ++ ["a"]).count "b" = 0 ∧
    scanVisible 0 [("a", { value := "1", expiresAt := 0 }),
        ("b", { value := "2", expiresAt := 0 })] "*" "b" = true := by decide

/-- C8 (amended): the exactly-once guarantee requires more than a keyspace
that does not change between calls — because each `Store.Scan` call ranges
over the Go map afresh in a randomized order, index pagination can miss and
repeat keys even quiescent (see the counterexample above).  Under the
additional assumption that the unchanged map enumerates its entries in the
same order on every call (modelled by threading the one association list
`d`, whose keys are unique as Go map keys are, through the whole
iteration), iterating SCAN from cursor 0 and following the returned
`next_cursor` until it is 0 visits every key matching the pattern exactly
once: each visible key appears exactly once in the concatenation of the
batches, and every other key not at all. -/
theorem c8_scan_exactly_once (now : Int) (d : StoreData) (pattern : String) (count : Nat)
    (hnd : (d.map Prod.fst).Nodup) (k : String) :
    (scanIter now d pattern count 0).count k
      = if scanVisible now d pattern k then 1 else 0 := by
  rw [scanIter_eq_scanAllKeys]
  exact count_scanAllKeys now pattern d hnd k

theorem c8_scan_exactly_once_witness :
    ((([("a", { value := "1", expiresAt := 0 }), ("b", { value := "2", expiresAt := 0 })]
        : StoreData).map Prod.fst).Nodup) ∧
    ((scanIter 0 [("a", { value := "1", expiresAt := 0 }),
        ("b", { value := "2", expiresAt := 0 })] "*" 1 0).count "a"
      = if scanVisible 0 [("a", { value := "1", expiresAt := 0 }),
          ("b", { value := "2", expiresAt := 0 })] "*" "a" then 1 else 0) :=
  ⟨by decide, c8_scan_exactly_once 0
    [("a", { value := "1", expiresAt := 0 }), ("b", { value := "2", expiresAt := 0 })]
    "*" 1 (by decide) "a"⟩

set_option maxRecDepth 4000 in
/-- C9: MSET is not atomic on failure — witnessed concretely: with argument
list `k1 v1 k2 v2` and the WAL failing on the second append, the command
returns an error while `k1 ↦ v1` is already in the keyspace and its record
in the WAL, and `k2` was never written. -/
theorem c9_mset_not_atomic :
    msetExample.2 = some .walIo ∧
    lookupAssoc msetExample.1.store "k1" = some { value := "v1", expiresAt := 0 } ∧
    lookupAssoc msetExample.1.store "k2" = none ∧
    msetExample.1.wal = [NewRecord 7 .set "k1" "v1"] := by decide

set_option maxRecDepth 4000 in
/-- C10: INCR on the maximum `int64` value does not error: `ParseInt`
accepts it, the Go `current++` wraps two's-complement, and the command
stores and returns `"-9223372036854775808"`; symmetrically DECR at the
minimum wraps to the maximum. -/
theorem c10_incr_wraps :
    (incrCommand true 0 9 stateMaxInt "c").2 = "-9223372036854775808" ∧
    lookupAssoc (incrCommand true 0 9 stateMaxInt "c").1.store "c"
      = some { value := "-9223372036854775808", expiresAt := 0 } ∧
    (decrCommand true 0 9 stateMinInt "c").2 = "9223372036854775807" ∧
    lookupAssoc (decrCommand true 0 9 stateMinInt "c").1.store "c"
      = some { value := "9223372036854775807", expiresAt := 0 } := by decide


end KVLite
